import Mathlib

/-!
# Verification development for the igridvu image grid viewer

Shallow embedding, in Lean 4, of the parts of the igridvu code base that the
specification talks about: suffix-line path construction, grid placement,
the image-load pre-check pipeline, pixel colour lookup, the view-rect
synchronisation fan-out, pointer-move pixel aggregation, the one-shot CLI
entry point, path-traversal containment, and the suffix-editor save/load
round trip.

Python strings are modelled as `List Char`; floating point coordinates are
modelled as exact rationals `ℚ`; the file system is passed in explicitly as
data.  Each definition is translated from the named Python function.
-/

namespace Igridvu

/-! ## Python string primitives -/

/-- The whitespace characters removed by Python `str.strip` / `str.rstrip`
(the ASCII ones: space, tab, newline, carriage return, vertical tab,
form feed). -/
def isPySpace (c : Char) : Bool :=
  c = ' ' || c = '\t' || c = '\n' || c = '\r' ||
  c = Char.ofNat 11 || c = Char.ofNat 12

/-- Python `s.rstrip()`: remove all trailing whitespace characters. -/
def pyRstrip (s : List Char) : List Char :=
  (s.reverse.dropWhile isPySpace).reverse

/-- Python `s.lstrip()`: remove all leading whitespace characters. -/
def pyLstrip (s : List Char) : List Char :=
  s.dropWhile isPySpace

/-- Python `s.strip()`: remove whitespace at both ends. -/
def pyStrip (s : List Char) : List Char :=
  pyRstrip (pyLstrip s)

/-- The trailing whitespace removed by `pyRstrip`. -/
def rstripTail (s : List Char) : List Char :=
  (s.reverse.takeWhile isPySpace).reverse

theorem pyRstrip_append_tail (s : List Char) :
    pyRstrip s ++ rstripTail s = s := by
  simp [pyRstrip, rstripTail, ← List.reverse_append]

theorem rstripTail_all_space (s : List Char) :
    ∀ c ∈ rstripTail s, isPySpace c := by
  intro c hc
  have : c ∈ s.reverse.takeWhile isPySpace := by
    simpa [rstripTail] using hc
  exact List.mem_takeWhile_imp this

/-! ## C8: path construction from a suffix line

`ImageGrid._populate_grid` (src/igridvu/main_window.py) and
`ImageGrid.initUI` (igridvu.py) both build the full image path from the
configured prefix and one line of the suffix file:

    clean_suffix = suffix.rstrip()
    full_path = self.pre_path + clean_suffix   # prefix is not a directory

(the directory case joins `prefix_path / clean_suffix` instead). -/

/-- One entry's path when the prefix is not a directory:
`self.pre_path + suffix.rstrip()`. -/
def buildPathConcat (prePath suffix : List Char) : List Char :=
  prePath ++ pyRstrip suffix

/-! ## C9: grid placement

The population loop of `ImageGrid._populate_grid`
(src/igridvu/main_window.py, also `initUI` in igridvu.py):

    for i, suffix in enumerate(suffixes):
        row = i // self.columns
        col = i % self.columns
        ...
        layout.addWidget(view, row, col, Qt.AlignTop)
        self.views.append(view)

modelled as a left fold that carries the built list and the running index,
producing for every suffix the `(suffix, row, col)` placement in insertion
order. -/

def populateGridPlacement (suffixes : List (List Char)) (columns : Nat) :
    List (List Char × Nat × Nat) :=
  (suffixes.foldl
    (fun acc s => (acc.1 ++ [(s, acc.2 / columns, acc.2 % columns)], acc.2 + 1))
    ([], 0)).1

theorem populateGridPlacement_foldl_general (columns : Nat)
    (l : List (List Char)) :
    ∀ (acc : List (List Char × Nat × Nat)) (n : Nat),
      (l.foldl
        (fun acc s => (acc.1 ++ [(s, acc.2 / columns, acc.2 % columns)], acc.2 + 1))
        (acc, n)) =
      (acc ++ (l.enumFrom n).map (fun p => (p.2, p.1 / columns, p.1 % columns)),
       n + l.length) := by
  induction l with
  | nil => intro acc n; simp
  | cons s rest ih =>
      intro acc n
      simp only [List.foldl_cons, List.enumFrom_cons, List.map_cons, List.length_cons]
      rw [ih]
      refine Prod.ext ?_ ?_
      · simp
      · simp; omega

theorem populateGridPlacement_eq (suffixes : List (List Char)) (columns : Nat) :
    populateGridPlacement suffixes columns =
      suffixes.enum.map (fun p => (p.2, p.1 / columns, p.1 % columns)) := by
  unfold populateGridPlacement
  rw [populateGridPlacement_foldl_general]
  simp [List.enum]

theorem getLast?_reverse_eq_head? {α : Type} (l : List α) :
    l.reverse.getLast? = l.head? := by
  cases l with
  | nil => rfl
  | cons a rest => rw [List.reverse_cons, List.getLast?_concat]; rfl

theorem head?_dropWhile_not {α : Type} (p : α → Bool) (l : List α) :
    ((l.dropWhile p).head?.all fun c => ! p c) = true := by
  induction l with
  | nil => rfl
  | cons a rest ih =>
      by_cases h : p a
      · rw [List.dropWhile_cons_of_pos h]; exact ih
      · rw [List.dropWhile_cons_of_neg h]
        simp [List.head?] at h ⊢
        exact h

theorem pyRstrip_last_not_space (s : List Char) :
    ((pyRstrip s).getLast?.all fun c => ! isPySpace c) = true := by
  rw [pyRstrip, getLast?_reverse_eq_head?]
  exact head?_dropWhile_not isPySpace s.reverse

/-- C8: building an entry's path from a suffix-file line removes only the
trailing whitespace of the line and keeps leading whitespace: the suffix
splits as its rstripped core followed by an all-whitespace tail, the core
itself ends in a non-whitespace character (or is empty), and the entry's
path is the prefix followed by that core; concretely, prefix `test_image`
with line `" 1.png\n"` yields the path `"test_image 1.png"`. -/
theorem c8_path_strips_only_trailing_whitespace :
    (∀ prePath suffix : List Char,
        ∃ w, suffix = pyRstrip suffix ++ w ∧ w.all isPySpace = true ∧
          ((pyRstrip suffix).getLast?.all fun c => ! isPySpace c) = true ∧
          buildPathConcat prePath suffix = prePath ++ pyRstrip suffix) ∧
    buildPathConcat ("test_image".toList) (" 1.png\n".toList)
      = "test_image 1.png".toList := by
  constructor
  · intro prePath suffix
    refine ⟨rstripTail suffix, (pyRstrip_append_tail suffix).symm, ?_,
      pyRstrip_last_not_space suffix, rfl⟩
    rw [List.all_eq_true]
    exact rstripTail_all_space suffix
  · rfl

/-- C9: an entry at zero-based dataset index `i` in a grid with `C` columns
is placed at row `i / C`, column `i % C`, and dataset order is insertion
order: the `i`-th placement produced by the population loop carries the
`i`-th suffix of the input list.  (The hypothesis `0 < columns` reflects
that Python `i // columns` requires a non-zero column count.) -/
theorem c9_grid_placement (suffixes : List (List Char)) (columns i : Nat)
    (hcol : 0 < columns) (hi : i < suffixes.length) :
    0 < columns ∧
    (populateGridPlacement suffixes columns).length = suffixes.length ∧
    (populateGridPlacement suffixes columns)[i]? =
      some (suffixes[i], i / columns, i % columns) := by
  rw [populateGridPlacement_eq]
  refine ⟨hcol, by simp, ?_⟩
  rw [List.getElem?_map, List.getElem?_enum]
  rw [List.getElem?_eq_getElem hi]
  simp

/-- Witness for C9: with five entries and four columns, the entry at
dataset index 4 is placed at row 1, column 0. -/
theorem c9_grid_placement_witness :
    (populateGridPlacement
        ["a".toList, "b".toList, "c".toList, "d".toList, "e".toList] 4).length = 5 ∧
    (populateGridPlacement
        ["a".toList, "b".toList, "c".toList, "d".toList, "e".toList] 4)[4]? =
      some ("e".toList, 1, 0) := by
  have h := c9_grid_placement
    ["a".toList, "b".toList, "c".toList, "d".toList, "e".toList] 4 4
    (by decide) (by simp)
  simpa using h

/-! ## C3: the image-load pre-check pipeline

`ZoomableView._get_loading_error` (src/igridvu/zoomable_view.py) followed by
the decode step of `ZoomableView._load_safe_pixmap`.  The facts the checks
consult about the file system and the decoder are passed in as data. -/

/-- The typed load-failure kinds surfaced by the pipeline (each corresponds
to one error string in the source). -/
inductive LoadError
  | invalidPath
  | notFound
  | permissionDenied
  | tooLarge (sizeBytes : Nat)
  | unrecognizedFormat
  | dimensionsTooLarge (width height : Nat)
  | corrupted
  deriving DecidableEq

/-- What the pre-load checks observe about one path. -/
structure FileInfo where
  /-- Result of `Path(img_path).is_file()`: exists and is a regular file. -/
  isFile : Bool
  /-- Result of `os.access(str(img_path), os.R_OK)`. -/
  readable : Bool
  /-- Result of `img_path.stat().st_size` in bytes. -/
  size : Nat
  /-- Result of `QImageReader(str(img_path)).canRead()`: header sniff succeeds. -/
  formatRecognized : Bool
  /-- Result of `QImageReader.size().width()`. -/
  width : Nat
  /-- Result of `QImageReader.size().height()`. -/
  height : Nat
  /-- the full decode (`QImage(self.img_path)`) yields a non-null image. -/
  decodesNonNull : Bool

/-- Constant `ZoomableView.MAX_FILE_SIZE_BYTES = 50 * 1024 * 1024`. -/
def MAX_FILE_SIZE_BYTES : Nat := 50 * 1024 * 1024

/-- Constant `ZoomableView.MAX_IMAGE_DIMENSION = 10000`. -/
def MAX_IMAGE_DIMENSION : Nat := 10000

/-- Embeds `ZoomableView._get_loading_error`: the pre-decode checks in source
order, short-circuiting on the first failure.  `pathValid` is the guard
`not self.img_path or self.img_path == "in-memory"`. -/
def getLoadingError (pathValid : Bool) (f : FileInfo) : Option LoadError :=
  if !pathValid then some .invalidPath
  else if !f.isFile then some .notFound
  else if !f.readable then some .permissionDenied
  else if f.size > MAX_FILE_SIZE_BYTES then some (.tooLarge f.size)
  else if !f.formatRecognized then some .unrecognizedFormat
  else if f.width > MAX_IMAGE_DIMENSION ∨ f.height > MAX_IMAGE_DIMENSION then
    some (.dimensionsTooLarge f.width f.height)
  else none

/-- Embeds `ZoomableView._load_safe_pixmap` for a path-based load: report the
pre-check error if any, otherwise decode and report `Corrupted` when the
decoded image is null; `none` means the image was loaded. -/
def loadResult (pathValid : Bool) (f : FileInfo) : Option LoadError :=
  match getLoadingError pathValid f with
  | some e => some e
  | none => if !f.decodesNonNull then some .corrupted else none

/-- Specification-side reading of the pipeline (spec §4.1 "Pre-decode
checks, performed strictly in this order"): the ordered check list, each
entry a pass/fail flag paired with the ErrorKind it reports. -/
def specCheckList (pathValid : Bool) (f : FileInfo) : List (Bool × LoadError) :=
  [(pathValid, .invalidPath),
   (f.isFile, .notFound),
   (f.readable, .permissionDenied),
   (decide (f.size ≤ MAX_FILE_SIZE_BYTES), .tooLarge f.size),
   (f.formatRecognized, .unrecognizedFormat),
   (decide (f.width ≤ MAX_IMAGE_DIMENSION) && decide (f.height ≤ MAX_IMAGE_DIMENSION),
     .dimensionsTooLarge f.width f.height),
   (f.decodesNonNull, .corrupted)]

/-- Specification-side pipeline result: the ErrorKind of the first failed
check, `none` when every check passes. -/
def specFirstFailure (pathValid : Bool) (f : FileInfo) : Option LoadError :=
  ((specCheckList pathValid f).find? (fun p => !p.1)).map (·.2)

/-- C3: for a real path the load pipeline succeeds iff the path is a
readable regular file of at most 50 MiB whose format is recognized, whose
two reported dimensions are at most 10000, and whose full decode is
non-null; the reported error is always that of the first failed check in
the fixed source order; in particular a file that is both unreadable and
too large reports PermissionDenied, not TooLarge. -/
theorem c3_load_pipeline (f : FileInfo) :
    (loadResult true f = none ↔
      (f.isFile = true ∧ f.readable = true ∧ f.size ≤ MAX_FILE_SIZE_BYTES ∧
       f.formatRecognized = true ∧ f.width ≤ MAX_IMAGE_DIMENSION ∧
       f.height ≤ MAX_IMAGE_DIMENSION ∧ f.decodesNonNull = true)) ∧
    loadResult true f = specFirstFailure true f ∧
    (f.isFile = true → f.readable = false → MAX_FILE_SIZE_BYTES < f.size →
      loadResult true f = some LoadError.permissionDenied) := by
  obtain ⟨isFile, readable, size, fmt, w, h, dec⟩ := f
  refine ⟨?_, ?_, ?_⟩ <;>
    cases isFile <;> cases readable <;> cases fmt <;> cases dec <;>
      simp [loadResult, getLoadingError, specFirstFailure, specCheckList,
        MAX_FILE_SIZE_BYTES, MAX_IMAGE_DIMENSION] <;>
      split_ifs <;> simp_all <;> omega

/-- Witness for C3: a regular but unreadable file of 60 MiB (also violating
the size bound) reports PermissionDenied. -/
theorem c3_load_pipeline_witness :
    loadResult true ⟨true, false, 60 * 1024 * 1024, true, 100, 100, true⟩ =
      some LoadError.permissionDenied :=
  (c3_load_pipeline ⟨true, false, 60 * 1024 * 1024, true, 100, 100, true⟩).2.2
    rfl rfl (by norm_num [MAX_FILE_SIZE_BYTES])

/-! ## C2: exact pixel colour query

`ZoomableView.get_color_at` (src/igridvu/zoomable_view.py).  For the
untransformed pixmap item at the scene origin, `mapFromScene` is the
identity, so the query point is already in image-local coordinates; the
floating point coordinates are modelled exactly as rationals. -/

/-- An RGBA colour (`QColor`). -/
structure Color where
  r : Nat
  g : Nat
  b : Nat
  a : Nat
  deriving DecidableEq

/-- A decoded image buffer (`QImage`): dimensions and the pixel grid
queried by `QImage.pixelColor`. -/
structure ImageBuf where
  width : Nat
  height : Nat
  pixel : Nat → Nat → Color

/-- Python `int(x)` applied to a float: truncation toward zero. -/
def pyInt (q : ℚ) : ℤ :=
  if 0 ≤ q then ⌊q⌋ else ⌈q⌉

/-- Embeds `ZoomableView.get_color_at`: truncate each coordinate with Python
`int()`, test the integer point against `QImage.rect()`, then read the
pixel. -/
def get_color_at (img : Option ImageBuf) (x y : ℚ) : Option Color :=
  match img with
  | none => none
  | some im =>
      let px := pyInt x
      let py := pyInt y
      if 0 ≤ px ∧ px < (im.width : ℤ) ∧ 0 ≤ py ∧ py < (im.height : ℤ) then
        some (im.pixel px.toNat py.toNat)
      else none

theorem pyInt_of_nonneg {q : ℚ} (h : 0 ≤ q) : pyInt q = ⌊q⌋ := by
  simp [pyInt, h]

/-- The in-bounds half of the colour-query contract holds: for an image
with a pixel of colour `c` at integer `(ix, iy)` inside the bounds, every
query point of `[ix, ix+1) × [iy, iy+1)` returns exactly `c`; and any query
point at or beyond the right/bottom edge, or at coordinate `≤ -1`, returns
none. -/
theorem get_color_at_in_bounds (im : ImageBuf) (ix iy : Nat)
    (hx : ix < im.width) (hy : iy < im.height) (x y : ℚ)
    (hx0 : (ix : ℚ) ≤ x) (hx1 : x < (ix : ℚ) + 1)
    (hy0 : (iy : ℚ) ≤ y) (hy1 : y < (iy : ℚ) + 1) :
    get_color_at (some im) x y = some (im.pixel ix iy) := by
  have hxnn : (0 : ℚ) ≤ x := le_trans (by positivity) hx0
  have hynn : (0 : ℚ) ≤ y := le_trans (by positivity) hy0
  have hfx : ⌊x⌋ = (ix : ℤ) := by
    rw [Int.floor_eq_iff]
    constructor
    · exact_mod_cast hx0
    · exact_mod_cast hx1
  have hfy : ⌊y⌋ = (iy : ℤ) := by
    rw [Int.floor_eq_iff]
    constructor
    · exact_mod_cast hy0
    · exact_mod_cast hy1
  have hpx : pyInt x = (ix : ℤ) := by rw [pyInt_of_nonneg hxnn, hfx]
  have hpy : pyInt y = (iy : ℤ) := by rw [pyInt_of_nonneg hynn, hfy]
  simp only [get_color_at, hpx, hpy]
  rw [if_pos]
  · simp
  · refine ⟨by positivity, ?_, by positivity, ?_⟩
    · exact_mod_cast hx
    · exact_mod_cast hy

/-- A 1×1 image whose single pixel is red. -/
def onePixelRed : ImageBuf :=
  ⟨1, 1, fun _ _ => ⟨255, 0, 0, 255⟩⟩

/-- C2 (failing input): the query point `(-1/2, 1/2)` lies outside
`[0, width) × [0, height)` of the 1×1 image, so the claim demands `none`;
but Python `int()` truncates `-1/2` toward zero to pixel column 0, the
bounds test passes, and the code returns the pixel's colour.  (The code's
own comment says the coordinates are floored, which would give column `-1`
and `none`.) -/
theorem c2_out_of_bounds_query_returns_color :
    ¬ ((0 : ℚ) ≤ -1/2) ∧
    get_color_at (some onePixelRed) (-1/2) (1/2) = some ⟨255, 0, 0, 255⟩ := by
  constructor
  · norm_num
  · have h1 : pyInt (-1/2) = 0 := by
      rw [pyInt, if_neg (by norm_num)]
      norm_num
    have h2 : pyInt (1/2) = 0 := by
      rw [pyInt_of_nonneg (by norm_num)]
      norm_num
    simp only [get_color_at, h1, h2]
    norm_num [onePixelRed]

/-! ## C1: synchronization fan-out

`ImageGrid.sync_views` (src/igridvu/main_window.py) together with
`ZoomableView.setViewRect` and `ZoomableView._emit_view_rect_changed`
(src/igridvu/zoomable_view.py).  A viewport's observable state is its
has-image flag, its Qt signal-block flag, its wheel-handling flag, and its
visible rectangle; emitted `viewRectChanged` notifications are collected in
a list. -/

/-- A floating-point rectangle (`QRectF`), coordinates as exact rationals. -/
structure Rect where
  x : ℚ
  y : ℚ
  w : ℚ
  h : ℚ
  deriving DecidableEq

/-- Test `QRectF.isNull()`: width and height are both zero. -/
def Rect.isNull (r : Rect) : Bool :=
  decide (r.w = 0 ∧ r.h = 0)

/-- The state of one `ZoomableView` relevant to synchronization. -/
structure ViewportState where
  hasImage : Bool
  signalsBlocked : Bool
  isHandlingWheel : Bool
  viewRect : Rect
  deriving DecidableEq

/-- Embeds `ZoomableView._emit_view_rect_changed`: the notifications this handler
emits — the current view rect, unless signals are blocked or a wheel event
is in progress. -/
def emitViewRectChanged (v : ViewportState) : List Rect :=
  if v.signalsBlocked || v.isHandlingWheel then [] else [v.viewRect]

/-- Embeds `ZoomableView.setViewRect`: a no-op without an image or for a null
rect; otherwise block signals, fit the given rect (the scroll machinery
this triggers runs `_emit_view_rect_changed`, which the block suppresses),
and unblock.  Returns the new state and every notification emitted during
the call. -/
def setViewRect (v : ViewportState) (r : Rect) : ViewportState × List Rect :=
  if !v.hasImage || r.isNull then (v, [])
  else
    let fitted : ViewportState :=
      { v with signalsBlocked := true, viewRect := r }
    let emitted := emitViewRectChanged fitted
    ({ fitted with signalsBlocked := false }, emitted)

/-- The push target `ZoomableView.setViewRect` never emits `viewRectChanged`. -/
theorem setViewRect_emits_nothing (v : ViewportState) (r : Rect) :
    (setViewRect v r).2 = [] := by
  rw [setViewRect]
  split
  · rfl
  · rfl

/-- Embeds `ImageGrid.sync_views`: push `rect` to every view that is not the
sender.  Views are identified by their index in `self.views`; the result
records the new view states, the indices on which `setViewRect` was
called, and every notification emitted during the pass. -/
def syncViews (views : List ViewportState) (sender : Nat) (r : Rect) :
    List ViewportState × List Nat × List Rect :=
  views.enum.foldl
    (fun acc p =>
      if p.1 = sender then (acc.1 ++ [p.2], acc.2.1, acc.2.2)
      else
        ((acc.1 ++ [(setViewRect p.2 r).1],
          acc.2.1 ++ [p.1],
          acc.2.2 ++ (setViewRect p.2 r).2)))
    ([], [], [])

theorem syncViews_foldl_general (sender : Nat) (r : Rect)
    (l : List (Nat × ViewportState)) :
    ∀ acc : List ViewportState × List Nat × List Rect,
      l.foldl
        (fun acc p =>
          if p.1 = sender then (acc.1 ++ [p.2], acc.2.1, acc.2.2)
          else
            ((acc.1 ++ [(setViewRect p.2 r).1],
              acc.2.1 ++ [p.1],
              acc.2.2 ++ (setViewRect p.2 r).2)))
        acc =
      (acc.1 ++ l.map (fun p => if p.1 = sender then p.2 else (setViewRect p.2 r).1),
       acc.2.1 ++ (l.filter (fun p => p.1 != sender)).map Prod.fst,
       acc.2.2) := by
  induction l with
  | nil => intro acc; simp
  | cons p rest ih =>
      intro acc
      rw [List.foldl_cons, ih]
      by_cases h : p.1 = sender
      · simp [h]
      · simp [h, setViewRect_emits_nothing]

theorem syncViews_eq (views : List ViewportState) (sender : Nat) (r : Rect) :
    syncViews views sender r =
      (views.enum.map (fun p => if p.1 = sender then p.2 else (setViewRect p.2 r).1),
       (views.enum.filter (fun p => p.1 != sender)).map Prod.fst,
       []) := by
  rw [syncViews, syncViews_foldl_general]
  simp

/-- C1: with `N` viewports and a rect change on viewport `sender`, the
fan-out calls `setViewRect` on exactly the `N − 1` other viewports — each
exactly once, in dataset order, never on the sender — `setViewRect` never
re-emits the notification, the whole pass emits zero `viewRectChanged`
notifications, and the sender's state is untouched. -/
theorem length_filter_range_ne (n s : Nat) (h : s < n) :
    ((List.range n).filter (fun i => i != s)).length = n - 1 := by
  induction n with
  | zero => omega
  | succ m ih =>
      rw [List.range_succ, List.filter_append, List.length_append]
      by_cases hs : s = m
      · subst hs
        have hall : (List.range s).filter (fun i => i != s) = List.range s := by
          apply List.filter_eq_self.mpr
          intro a ha
          have := List.mem_range.mp ha
          simp
          omega
        rw [hall]
        simp
      · have hs' : s < m := by omega
        rw [ih hs']
        have hone : ([m].filter (fun i => i != s)) = [m] := by
          simp
          omega
        rw [hone]
        simp
        omega

theorem c1_sync_fanout (views : List ViewportState) (sender : Nat) (r : Rect)
    (h : sender < views.length) :
    (syncViews views sender r).2.1 =
        (List.range views.length).filter (fun i => i != sender) ∧
    ((syncViews views sender r).2.1).length = views.length - 1 ∧
    sender ∉ (syncViews views sender r).2.1 ∧
    (syncViews views sender r).2.2 = [] ∧
    (∀ v r', (setViewRect v r').2 = []) ∧
    (syncViews views sender r).1.length = views.length ∧
    (syncViews views sender r).1[sender]? = views[sender]? := by
  rw [syncViews_eq]
  have hcalls :
      (views.enum.filter (fun p => p.1 != sender)).map Prod.fst =
        (List.range views.length).filter (fun i => i != sender) := by
    rw [← List.enum_map_fst views, List.filter_map]
    rfl
  refine ⟨hcalls, ?_, ?_, rfl, fun v r' => setViewRect_emits_nothing v r', by simp, ?_⟩
  · rw [hcalls]
    exact length_filter_range_ne views.length sender h
  · rw [hcalls]
    intro hmem
    have := (List.mem_filter.mp hmem).2
    simp at this
  · rw [List.getElem?_map]
    rw [List.getElem?_enum]
    cases hv : views[sender]? with
    | none => rfl
    | some v => simp

/-- A sample viewport with an image and no blocked signals. -/
def sampleViewport : ViewportState :=
  ⟨true, false, false, ⟨0, 0, 10, 10⟩⟩

/-- A sample non-null rectangle. -/
def sampleRect : Rect :=
  ⟨1, 2, 3, 4⟩

/-- Witness for C1: with three viewports and a rect change on viewport 1,
`setViewRect` is called on exactly viewports 0 and 2 and zero
notifications are emitted. -/
theorem c1_sync_fanout_witness :
    (syncViews [sampleViewport, sampleViewport, sampleViewport] 1 sampleRect).2.1
        = [0, 2] ∧
    (syncViews [sampleViewport, sampleViewport, sampleViewport] 1 sampleRect).2.2
        = [] := by
  have hh := c1_sync_fanout [sampleViewport, sampleViewport, sampleViewport] 1
    sampleRect (by simp)
  refine ⟨?_, hh.2.2.2.1⟩
  rw [hh.1]
  rfl

/-! ## C4: pointer-move pixel aggregation

`ImageGrid._update_pixel_info` (igridvu.py) — the coordinator handler the
spec's §4.3 describes — together with the `ZoomableView.get_color_at` of
the same module, which maps the scene point with `QPointF.toPoint()`
(round-to-nearest) before the bounds test. -/

/-- Qt `qRound`, used by `QPointF.toPoint()`: round half away from zero
(`int(d + 0.5)` for non-negative `d`, `int(d - 0.5)` otherwise). -/
def qRound (q : ℚ) : ℤ :=
  if 0 ≤ q then ⌊q + 1/2⌋ else ⌈q - 1/2⌉

/-- One legacy `ZoomableView` as the pointer-move handler sees it: overlay
label, image path, and the decoded image if the load succeeded. -/
structure ViewModel where
  labelText : List Char
  imgPath : List Char
  image : Option ImageBuf

/-- Embeds `ZoomableView.get_color_at` (igridvu.py): `None` without an image,
otherwise round the scene point to a `QPoint`, test it against the image
rect, and read the pixel. -/
def legacy_get_color_at (v : ViewModel) (x y : ℚ) : Option Color :=
  match v.image with
  | none => none
  | some im =>
      let px := qRound x
      let py := qRound y
      if 0 ≤ px ∧ px < (im.width : ℤ) ∧ 0 ≤ py ∧ py < (im.height : ℤ) then
        some (im.pixel px.toNat py.toNat)
      else none

/-- Decimal rendering of a natural number, as in Python string formatting. -/
def natChars (n : Nat) : List Char :=
  (Nat.repr n).toList

/-- The `format_pixel_data` helper of `ImageGrid._update_pixel_info`:
`"label: (r,g,b)"`, or `"label: ---"` when the view's colour query is out
of bounds. -/
def formatPixelData (v : ViewModel) (x y : ℚ) : List Char :=
  v.labelText ++ ": ".toList ++
    (match legacy_get_color_at v x y with
     | some c =>
         "(".toList ++ natChars c.r ++ ",".toList ++ natChars c.g ++
           ",".toList ++ natChars c.b ++ ")".toList
     | none => "---".toList)

/-- What `ImageGrid._update_pixel_info` publishes to the status bar. -/
inductive StatusUpdate
  | noUpdate
  | pathOnly (path : List Char)
  | aggregated (path : List Char) (x y : ℤ) (entries : List (List Char))
  deriving DecidableEq

/-- Embeds `ImageGrid._update_pixel_info` (igridvu.py): nothing when the sender is
unknown or has no image; only the hovered path when the sender's own colour
query is out of bounds; otherwise one aggregated line with the integer
coordinates of the scene point and one formatted entry per view, in
`self.views` order. -/
def updatePixelInfo (views : List ViewModel) (sender : Nat) (x y : ℚ) :
    StatusUpdate :=
  match views[sender]? with
  | none => .noUpdate
  | some sv =>
      if sv.image.isNone then .noUpdate
      else
        match legacy_get_color_at sv x y with
        | none => .pathOnly sv.imgPath
        | some _ =>
            .aggregated sv.imgPath (pyInt x) (pyInt y)
              (views.map (fun v => formatPixelData v x y))

/-- C4: on a pointer move from a viewport with an image, (a) a source-side
out-of-bounds colour query yields only the hovered path and no pixel
readout; (b) otherwise the handler publishes one aggregated line whose
coordinates are the truncated event point and whose entries are the
formatted colour of every viewport, one per viewport in dataset order,
with `"label: ---"` for any sibling whose own query is out of bounds. -/
theorem c4_pointer_move_aggregation (views : List ViewModel) (sender : Nat)
    (sv : ViewModel) (x y : ℚ)
    (hs : views[sender]? = some sv) (himg : sv.image.isNone = false) :
    (legacy_get_color_at sv x y = none →
      updatePixelInfo views sender x y = .pathOnly sv.imgPath) ∧
    (∀ c, legacy_get_color_at sv x y = some c →
      updatePixelInfo views sender x y =
        .aggregated sv.imgPath (pyInt x) (pyInt y)
          (views.map (fun v => formatPixelData v x y)) ∧
      (views.map (fun v => formatPixelData v x y)).length = views.length ∧
      (∀ (i : Nat) (w : ViewModel), views[i]? = some w →
        legacy_get_color_at w x y = none →
        (views.map (fun v => formatPixelData v x y))[i]? =
          some (w.labelText ++ ": ---".toList))) := by
  constructor
  · intro hnone
    rw [updatePixelInfo, hs]
    simp only [himg]
    rw [hnone]
    rfl
  · intro c hsome
    refine ⟨?_, by simp, ?_⟩
    · rw [updatePixelInfo, hs]
      simp only [himg]
      rw [hsome]
      rfl
    · intro i w hw hwnone
      rw [List.getElem?_map, hw]
      simp only [Option.map_some']
      rw [formatPixelData, hwnone]
      rw [List.append_assoc]
      rfl

/-- Witness for C4 (spec §8's aggregation example): two loaded images of
sizes 10×10 and 5×5, pointer move to image coordinate (7, 7) from the
first view: one aggregated line with colour data for the first view and
the `---` placeholder for the second. -/
theorem c4_pointer_move_aggregation_witness :
    updatePixelInfo
        [⟨"first".toList, "p1.png".toList, some ⟨10, 10, fun _ _ => ⟨9, 8, 7, 255⟩⟩⟩,
         ⟨"second".toList, "p2.png".toList, some ⟨5, 5, fun _ _ => ⟨1, 2, 3, 255⟩⟩⟩]
        0 7 7 =
      .aggregated ("p1.png".toList) 7 7
        ["first: (9,8,7)".toList, "second: ---".toList] := by
  have hq : qRound (7 : ℚ) = 7 := by
    rw [qRound, if_pos (by norm_num)]
    norm_num
  have hp : pyInt (7 : ℚ) = 7 := by
    rw [pyInt_of_nonneg (by norm_num)]
    norm_num
  have hcol :
      legacy_get_color_at
        ⟨"first".toList, "p1.png".toList, some ⟨10, 10, fun _ _ => ⟨9, 8, 7, 255⟩⟩⟩
        7 7 = some ⟨9, 8, 7, 255⟩ := by
    rw [legacy_get_color_at]
    simp only [hq]
    norm_num
  have hmain := c4_pointer_move_aggregation
    [⟨"first".toList, "p1.png".toList, some ⟨10, 10, fun _ _ => ⟨9, 8, 7, 255⟩⟩⟩,
     ⟨"second".toList, "p2.png".toList, some ⟨5, 5, fun _ _ => ⟨1, 2, 3, 255⟩⟩⟩]
    0
    ⟨"first".toList, "p1.png".toList, some ⟨10, 10, fun _ _ => ⟨9, 8, 7, 255⟩⟩⟩
    7 7 rfl rfl
  have h2 := (hmain.2 ⟨9, 8, 7, 255⟩ hcol).1
  rw [h2, hp]
  have hcol2 :
      legacy_get_color_at
        ⟨"second".toList, "p2.png".toList, some ⟨5, 5, fun _ _ => ⟨1, 2, 3, 255⟩⟩⟩
        7 7 = none := by
    rw [legacy_get_color_at]
    simp only [hq]
    norm_num
  simp only [List.map_cons, List.map_nil, formatPixelData, hcol, hcol2]
  rfl

/-! ## C5: anchor-invariant zoom

`ZoomableView.wheelEvent` sets a uniform scale factor and delegates the
transform update to the GUI toolkit: the view was configured with
`setTransformationAnchor(AnchorUnderMouse)` in `_setup_ui`, and
`self.scale(zoom_factor, zoom_factor)` multiplies the view scale while the
anchor policy re-translates the view so the scene point under the mouse
keeps its screen position. -/

/-- The screen↔image mapping of one viewport: uniform scale `k` (screen
pixels per image pixel) and screen offset `(ox, oy)` of the image origin. -/
structure ViewXform where
  k : ℚ
  ox : ℚ
  oy : ℚ
  deriving DecidableEq

/-- Embeds `ZoomableView.mapToScene` restricted to the image plane: screen point to
image point under the current transform. -/
def mapScreenToImage (t : ViewXform) (p : ℚ × ℚ) : ℚ × ℚ :=
  ((p.1 - t.ox) / t.k, (p.2 - t.oy) / t.k)

/-- The inverse mapping: image point to screen point. -/
def mapImageToScreen (t : ViewXform) (q : ℚ × ℚ) : ℚ × ℚ :=
  (t.k * q.1 + t.ox, t.k * q.2 + t.oy)

/-- Modelled from the spec: `zoom(factor, anchorScreenPoint)` "rescales the
mapping between screen and image coordinates by `factor` around
`anchorScreenPoint`".  The transform arithmetic itself lives in the GUI
toolkit (`AnchorUnderMouse` + `QGraphicsView.scale`), not in this
repository: the scale is multiplied by `factor` and the offset is
re-derived so that the image point currently under the anchor stays at the
anchor. -/
def zoom (t : ViewXform) (factor : ℚ) (anchor : ℚ × ℚ) : ViewXform :=
  let a := mapScreenToImage t anchor
  let knew := t.k * factor
  { k := knew, ox := anchor.1 - knew * a.1, oy := anchor.2 - knew * a.2 }

/-- Embeds `ZoomableView.wheelEvent`: a no-op without an image or while a wheel
event is already being handled; otherwise zoom by 1.15 (wheel up) or 1/1.15
(wheel down) around the cursor. -/
structure ZoomViewState where
  hasImage : Bool
  isHandlingWheel : Bool
  xform : ViewXform
  deriving DecidableEq

def wheelEvent (v : ZoomViewState) (angleDeltaY : ℤ) (cursor : ℚ × ℚ) :
    ZoomViewState :=
  if !v.hasImage || v.isHandlingWheel then v
  else
    let zoomFactor : ℚ := if angleDeltaY > 0 then 115/100 else 100/115
    { v with xform := zoom v.xform zoomFactor cursor }

/-- C5: zoom is anchor-invariant — for a viewport with a loaded image and a
proper transform, after `zoom(f, p)` with `f > 0` the image point that was
under screen point `p` before the call maps back exactly to `p` (the
rational model has no floating-point error, so "within tolerance" becomes
equality); moreover the wheel handler applies exactly such a zoom. -/
theorem c5_zoom_anchor_invariant (t : ViewXform) (f : ℚ) (p : ℚ × ℚ)
    (hk : t.k ≠ 0) (hf : 0 < f) :
    mapImageToScreen (zoom t f p) (mapScreenToImage t p) = p ∧
    mapScreenToImage (zoom t f p) p = mapScreenToImage t p ∧
    (∀ v : ZoomViewState, v.hasImage = true → v.isHandlingWheel = false →
      ∀ dy : ℤ, 0 < dy →
        (wheelEvent v dy p).xform = zoom v.xform (115/100) p) := by
  have hkf : t.k * f ≠ 0 := mul_ne_zero hk (ne_of_gt hf)
  refine ⟨?_, ?_, ?_⟩
  · simp only [mapImageToScreen, mapScreenToImage, zoom]
    refine Prod.ext ?_ ?_ <;>
      (simp only; field_simp)
  · rw [mapScreenToImage, mapScreenToImage, zoom]
    simp only
    refine Prod.ext ?_ ?_ <;>
      (simp only [mapScreenToImage]; field_simp; ring)
  · intro v hv hw dy hdy
    rw [wheelEvent]
    simp [hv, hw, hdy]

/-- Witness for C5: zooming in by 1.15 around screen point (40, 30) from
scale 2, offset (10, 6): the image point that was under (40, 30) maps back
to (40, 30). -/
theorem c5_zoom_anchor_invariant_witness :
    mapImageToScreen (zoom ⟨2, 10, 6⟩ (115/100) (40, 30))
        (mapScreenToImage ⟨2, 10, 6⟩ (40, 30)) = (40, 30) :=
  (c5_zoom_anchor_invariant ⟨2, 10, 6⟩ (115/100) (40, 30)
    (by norm_num) (by norm_num)).1

/-! ## C6: path-traversal containment

`ImageGrid._populate_grid` (src/igridvu/main_window.py): the resolved full
path must stay inside the resolved base directory, otherwise the entry gets
the "Path traversal attempt" error and the `ZoomableView` constructor takes
the error branch, never calling `_load_safe_pixmap` (the loader/decoder).
Paths are modelled as lists of components; `Path.resolve` processes `..`
and `.` entries; `Path.relative_to(base)` succeeds exactly when `base` is a
component-prefix of the resolved path. -/

/-- Embeds `Path.resolve()` on an absolute component list: `..` pops the last
component (staying at the root when empty), `.` is dropped. -/
def resolvePath (comps : List (List Char)) : List (List Char) :=
  comps.foldl
    (fun acc c =>
      if c = "..".toList then acc.dropLast
      else if c = ".".toList then acc
      else acc ++ [c])
    []

/-- The per-entry errors `_populate_grid` can set before constructing the
view. -/
inductive EntryError
  | pathTraversal
  | basePathNotFound
  deriving DecidableEq

/-- What one `_populate_grid` iteration decides for an entry: the error
passed to the `ZoomableView` constructor (if any) and whether the
constructor will run `_load_safe_pixmap` (it does exactly when no error was
set). -/
structure EntryOutcome where
  error : Option EntryError
  loaderInvoked : Bool
  deriving DecidableEq

/-- The containment check of `_populate_grid` for one suffix:
`resolved_path.relative_to(base_dir)` raising `ValueError` means the
resolved path escaped the base directory.  `targetExists` records whether
the file at the resolved path exists; the check never consults it. -/
def populateEntry (baseDir : Option (List (List Char)))
    (fullPath : List (List Char)) (targetExists : Bool) : EntryOutcome :=
  match baseDir with
  | none => ⟨some .basePathNotFound, false⟩
  | some base =>
      if base <+: resolvePath fullPath then ⟨none, true⟩
      else ⟨some .pathTraversal, false⟩

/-- C6: a suffix whose resolved path escapes the base directory (base a
directory prefix, full path = base components followed by the suffix's
components) is marked with the path-traversal error and the loader is
never invoked, whether or not the target file exists. -/
theorem c6_path_traversal_rejected (base suffixComps : List (List Char))
    (targetExists : Bool)
    (hesc : ¬ base <+: resolvePath (base ++ suffixComps)) :
    populateEntry (some base) (base ++ suffixComps) targetExists =
      ⟨some EntryError.pathTraversal, false⟩ := by
  simp only [populateEntry]
  rw [if_neg hesc]

/-- Witness for C6: base directory `/home/user`, suffix `../secret.txt`:
the resolved path `/home/secret.txt` escapes the base, the entry is marked
`pathTraversal` and the loader is not invoked, both when the target exists
and when it does not. -/
theorem c6_path_traversal_rejected_witness :
    populateEntry (some ["home".toList, "user".toList])
        (["home".toList, "user".toList] ++ ["..".toList, "secret.txt".toList])
        true =
      ⟨some EntryError.pathTraversal, false⟩ ∧
    populateEntry (some ["home".toList, "user".toList])
        (["home".toList, "user".toList] ++ ["..".toList, "secret.txt".toList])
        false =
      ⟨some EntryError.pathTraversal, false⟩ := by
  constructor
  · exact c6_path_traversal_rejected _ _ true (by decide)
  · exact c6_path_traversal_rejected _ _ false (by decide)

/-! ## C7: the one-shot CLI

`main()` of igridvu.py: reading the suffix file and deciding between
`sys.exit` and constructing the grid.  The file system is passed in as the
file's lines (`none` when the file does not exist). -/

/-- Constant `MAX_IMAGES = 30` in `main()` of igridvu.py. -/
def MAX_IMAGES : Nat := 30

/-- The observable outcome of `main()`: a `sys.exit(code)` with the line
printed to stderr just before it, or the launch of the grid with the
suffixes read. -/
inductive CliOutcome
  | exited (code : Nat) (stderrLine : List Char)
  | launched (suffixes : List (List Char))
  deriving DecidableEq

/-- Suffix-file path selection in `main()`: the explicit second CLI
argument if given, else `igridvu_suffix.txt` next to the prefix. -/
def chooseSuffixFile (explicitArg : Option (List Char))
    (prefixParent : List Char) : List Char :=
  match explicitArg with
  | some p => p
  | none => prefixParent ++ "/igridvu_suffix.txt".toList

/-- Embeds `main()` of igridvu.py from the suffix-file open to `sys.exit` or the
`ImageGrid` construction: a missing file raises `FileNotFoundError`, caught
to print an error on stderr and `sys.exit(1)`; an empty suffix list prints
an info line on stderr and `sys.exit(0)`; otherwise the grid is built from
the first `MAX_IMAGES` lines. -/
def igridvuMain (suffixFilePath : List Char)
    (file : Option (List (List Char))) : CliOutcome :=
  match file with
  | none =>
      .exited 1
        ("Error: Suffix file not found at '".toList ++ suffixFilePath ++ "'".toList)
  | some fileLines =>
      let listOfSuffix := fileLines.take MAX_IMAGES
      if listOfSuffix.isEmpty then
        .exited 0
          ("Info: Suffix file '".toList ++ suffixFilePath ++
            "' is empty. Nothing to display.".toList)
      else
        .launched listOfSuffix

/-- C7: with an explicitly-named suffix file, a missing file exits with
status 1 (non-zero) and an error-stream message, while an existing but
empty file exits with status 0 and an informational message. -/
theorem c7_cli_exit_behaviour (explicitPath prefixParent : List Char) :
    (igridvuMain (chooseSuffixFile (some explicitPath) prefixParent) none =
        .exited 1
          ("Error: Suffix file not found at '".toList ++ explicitPath ++
            "'".toList) ∧
      (1 : Nat) ≠ 0) ∧
    igridvuMain (chooseSuffixFile (some explicitPath) prefixParent) (some []) =
      .exited 0
        ("Info: Suffix file '".toList ++ explicitPath ++
          "' is empty. Nothing to display.".toList) := by
  refine ⟨⟨rfl, by omega⟩, rfl⟩

/-! ## C10: suffix-editor save/load round trip

`SuffixEditorDialog._save_and_accept` writes the edited suffixes joined by
newlines with one trailing newline when non-empty;
`SuffixEditorDialog._load_suffixes` reads at most `max_suffixes` lines,
strips each and keeps the non-blank ones. -/

/-- The universal-newline translation Python's text-mode reading applies
before lines are split: `"\r\n"` and bare `"\r"` both become `"\n"`. -/
def univNewlines : List Char → List Char
  | [] => []
  | [c] => if c = '\r' then ['\n'] else [c]
  | c :: d :: rest =>
      if c = '\r' then
        if d = '\n' then '\n' :: univNewlines rest
        else '\n' :: univNewlines (d :: rest)
      else c :: univNewlines (d :: rest)

/-- The lines Python file iteration yields, without the trailing `'\n'`
terminators (which the subsequent `strip()` removes anyway):
`"a\nb\n" ↦ ["a", "b"]`, `"a\nb" ↦ ["a", "b"]`, `"" ↦ []`. -/
def splitLines (s : List Char) : List (List Char) :=
  s.foldr
    (fun c acc =>
      if c = '\n' then [] :: acc
      else
        match acc with
        | [] => [[c]]
        | l :: ls => (c :: l) :: ls)
    []

/-- Python `'\n'.join(suffixes)`. -/
def joinNewline : List (List Char) → List Char
  | [] => []
  | [s] => s
  | s :: rest => s ++ '\n' :: joinNewline rest

/-- Embeds `SuffixEditorDialog._save_and_accept`: the file content written —
`'\n'.join(suffixes)` plus a trailing newline when the list is non-empty. -/
def saveSuffixes (suffixes : List (List Char)) : List Char :=
  joinNewline suffixes ++ (if suffixes.isEmpty then [] else ['\n'])

/-- Embeds `SuffixEditorDialog._load_suffixes`: at most `maxSuffixes` lines of the
(universal-newline-translated) content, each stripped, blank results
dropped. -/
def loadSuffixes (maxSuffixes : Nat) (content : List Char) :
    List (List Char) :=
  (((splitLines (univNewlines content)).take maxSuffixes).map pyStrip).filter
    (fun l => !l.isEmpty)

theorem univNewlines_id {s : List Char} (h : ∀ c ∈ s, ¬ c = '\r') :
    univNewlines s = s := by
  induction s with
  | nil => rfl
  | cons c rest ih =>
      have hc : ¬ c = '\r' := h c (List.mem_cons_self c rest)
      have hrest : ∀ x ∈ rest, ¬ x = '\r' :=
        fun x hx => h x (List.mem_cons_of_mem c hx)
      cases rest with
      | nil => simp [univNewlines, hc]
      | cons d r =>
          rw [show univNewlines (c :: d :: r) = c :: univNewlines (d :: r) by
            rw [univNewlines, if_neg hc]]
          rw [ih hrest]

theorem splitLines_cons_newline (t : List Char) :
    splitLines ('\n' :: t) = [] :: splitLines t := by
  rw [splitLines, List.foldr_cons, if_pos rfl]
  rfl

theorem splitLines_append_newline {s : List Char} (t : List Char)
    (h : '\n' ∉ s) :
    splitLines (s ++ '\n' :: t) = s :: splitLines t := by
  induction s with
  | nil => exact splitLines_cons_newline t
  | cons c s' ih =>
      have hc : ¬ c = '\n' := fun hcc => h (hcc ▸ List.mem_cons_self c s')
      have hs' : '\n' ∉ s' := fun hx => h (List.mem_cons_of_mem c hx)
      rw [List.cons_append, splitLines, List.foldr_cons, if_neg hc]
      have : (s' ++ '\n' :: t).foldr
          (fun c acc =>
            if c = '\n' then [] :: acc
            else
              match acc with
              | [] => [[c]]
              | l :: ls => (c :: l) :: ls)
          [] = splitLines (s' ++ '\n' :: t) := rfl
      rw [this, ih hs']

theorem saveSuffixes_cons (s : List Char) (rest : List (List Char)) :
    saveSuffixes (s :: rest) = s ++ '\n' :: saveSuffixes rest := by
  cases rest with
  | nil => simp [saveSuffixes, joinNewline]
  | cons r rs =>
      show joinNewline (s :: r :: rs) ++ _ = _
      rw [show joinNewline (s :: r :: rs) = s ++ '\n' :: joinNewline (r :: rs) from rfl]
      simp [saveSuffixes, List.append_assoc]

theorem mem_saveSuffixes {c : Char} {l : List (List Char)}
    (hc : c ∈ saveSuffixes l) : c = '\n' ∨ ∃ s ∈ l, c ∈ s := by
  induction l with
  | nil => simp [saveSuffixes, joinNewline] at hc
  | cons s rest ih =>
      rw [saveSuffixes_cons] at hc
      rcases List.mem_append.mp hc with hmem | hmem
      · exact Or.inr ⟨s, List.mem_cons_self s rest, hmem⟩
      · rcases List.mem_cons.mp hmem with hmem | hmem
        · exact Or.inl hmem
        · rcases ih hmem with hnl | ⟨t, ht, hct⟩
          · exact Or.inl hnl
          · exact Or.inr ⟨t, List.mem_cons_of_mem s ht, hct⟩

theorem splitLines_saveSuffixes {l : List (List Char)}
    (h : ∀ s ∈ l, '\n' ∉ s) :
    splitLines (saveSuffixes l) = l := by
  induction l with
  | nil => rfl
  | cons s rest ih =>
      rw [saveSuffixes_cons,
        splitLines_append_newline _ (h s (List.mem_cons_self s rest)),
        ih (fun t ht => h t (List.mem_cons_of_mem s ht))]

/-- C10 (counterexample): the suffix `"a\nb"` is non-empty and has no
leading or trailing whitespace, and a one-element list easily fits the
30-entry cap, yet saving `["a\nb"]` and loading it back yields
`["a", "b"]`, not `["a\nb"]`. -/
theorem c10_round_trip_counterexample :
    ("a\nb".toList ≠ ([] : List Char)) ∧
    pyStrip ("a\nb".toList) = "a\nb".toList ∧
    ([("a\nb".toList)] : List (List Char)).length ≤ 30 ∧
    loadSuffixes 30 (saveSuffixes ["a\nb".toList]) = ["a".toList, "b".toList] ∧
    loadSuffixes 30 (saveSuffixes ["a\nb".toList]) ≠ ["a\nb".toList] := by
  refine ⟨by decide, by decide, by decide, by decide, by decide⟩

/-- C10 (amended): for every list of at most `maxSuffixes` suffixes that
are non-empty, carry no leading or trailing whitespace, **and contain no
newline or carriage-return characters**, saving with the suffix editor and
loading the same file back returns exactly the same list in the same
order. -/
theorem c10_round_trip (maxSuffixes : Nat) (l : List (List Char))
    (hlen : l.length ≤ maxSuffixes)
    (hok : ∀ s ∈ l, s ≠ [] ∧ pyStrip s = s ∧ ∀ c ∈ s, ¬ c = '\n' ∧ ¬ c = '\r') :
    loadSuffixes maxSuffixes (saveSuffixes l) = l := by
  have hnocr : ∀ c ∈ saveSuffixes l, ¬ c = '\r' := by
    intro c hc hcr
    rcases mem_saveSuffixes hc with hnl | ⟨s, hs, hcs⟩
    · rw [hcr] at hnl
      exact absurd hnl (by decide)
    · exact ((hok s hs).2.2 c hcs).2 hcr
  have hnonl : ∀ s ∈ l, '\n' ∉ s := by
    intro s hs hnl
    exact ((hok s hs).2.2 '\n' hnl).1 rfl
  rw [loadSuffixes, univNewlines_id hnocr, splitLines_saveSuffixes hnonl]
  rw [List.take_of_length_le hlen]
  have hmap : l.map pyStrip = l := by
    conv_rhs => rw [← List.map_id l]
    exact List.map_congr_left (fun s hs => (hok s hs).2.1)
  rw [hmap]
  rw [List.filter_eq_self]
  intro s hs
  simpa using (hok s hs).1

/-- Witness for C10: saving the two suffixes `a.png`, `b.png` and loading
them back returns the same two suffixes in the same order. -/
theorem c10_round_trip_witness :
    loadSuffixes 30 (saveSuffixes ["a.png".toList, "b.png".toList]) =
      ["a.png".toList, "b.png".toList] :=
  c10_round_trip 30 ["a.png".toList, "b.png".toList] (by decide) (by decide)

end Igridvu
